import Mathlib

/-!
# Verification of uv-mirror

A shallow embedding of the uv-mirror tool: `src/src/uv_mirror/cli.py` (the
CLI) and `src/uv-index.py` (the standalone script).  Timestamps, durations and
speeds are modelled as rationals (`ℚ`); Python exceptions are modelled with
`Except`; network behaviour of a probe is modelled as an explicit input
(`ProbeInput`): either an httpx request failure, or a trace of chunk arrivals.
-/

namespace UvMirror

/-- Embeds the dataclass `DownloadResult` of `cli.py` (lines 64–69):
total bytes received, elapsed duration, target identifier, computed speed. -/
structure DownloadResult where
  total_bytes : ℕ
  duration : ℚ
  value : String
  speed : ℚ
  deriving Repr, DecidableEq

/-- One chunk arriving on the stream: its arrival timestamp (the value
`time.time()` returns when the loop body runs for it) and its byte length. -/
structure Chunk where
  time : ℚ
  size : ℕ
  deriving Repr, DecidableEq

/-- Embeds the chunk loop of `download` (`cli.py` lines 83–87): for each chunk,
`end_at` is set to the chunk's arrival time, then if `end_at - start_at >
timeout` the loop breaks (without counting the chunk), otherwise the chunk's
length is added to `total_bytes`.  Returns the final `(end_at, total_bytes)`;
the caller passes the initial `end_at = -1`. -/
def downloadLoop (startAt timeout : ℚ) : List Chunk → ℚ → ℕ → ℚ × ℕ
  | [], endAt, total => (endAt, total)
  | c :: cs, _, total =>
    if c.time - startAt > timeout then (c.time, total)
    else downloadLoop startAt timeout cs c.time (total + c.size)

/-- Embeds `download` of `cli.py` (lines 72–96): runs the chunk loop with
initial `end_at = -1`, then computes `duration = end_at - start_at` and
`speed = total_bytes / duration`.  Python float division raises
`ZeroDivisionError` when `duration == 0`, which we model as `Except.error`;
rationals have no negative zero, and division by a negative duration is fine
in both (it yields a non-positive speed). -/
def download (value : String) (timeout : ℚ) (startAt : ℚ) (chunks : List Chunk) :
    Except String DownloadResult :=
  let r := downloadLoop startAt timeout chunks (-1) 0
  let duration := r.1 - startAt
  if duration = 0 then Except.error "ZeroDivisionError: float division by zero"
  else Except.ok ⟨r.2, duration, value, (r.2 : ℚ) / duration⟩

/-- The observable network behaviour of one probe: either httpx raises (a
connection/TLS/protocol/read failure), or the stream yields a trace of chunks
starting at `startAt`. -/
inductive ProbeInput where
  | fail (msg : String)
  | trace (startAt : ℚ) (chunks : List Chunk)
  deriving Repr, DecidableEq

/-- Runs one probe: a network failure is the raised exception, otherwise the
result of `download` (which may itself raise `ZeroDivisionError`). -/
def runProbe (value : String) (timeout : ℚ) : ProbeInput → Except String DownloadResult
  | .fail msg => .error msg
  | .trace startAt chunks => download value timeout startAt chunks

/-- Embeds `test_index_urls` of `cli.py` (lines 195–212): probes each target in
order; any exception is caught (printed) and the target skipped; a returned
result is appended only when `result.speed > 0`. -/
def test_index_urls (timeout : ℚ) : List (String × ProbeInput) → List DownloadResult
  | [] => []
  | (v, inp) :: rest =>
    match runProbe v timeout inp with
    | .error _ => test_index_urls timeout rest
    | .ok r =>
      if r.speed > 0 then r :: test_index_urls timeout rest
      else test_index_urls timeout rest

/-- Embeds `test_python_install_urls` of `cli.py` (lines 215–230): identical
probe-and-filter logic over the python-install mirror list (only the probed
URL construction differs, which lives inside the `ProbeInput`). -/
def test_python_install_urls (timeout : ℚ) : List (String × ProbeInput) → List DownloadResult
  | [] => []
  | (v, inp) :: rest =>
    match runProbe v timeout inp with
    | .error _ => test_python_install_urls timeout rest
    | .ok r =>
      if r.speed > 0 then r :: test_python_install_urls timeout rest
      else test_python_install_urls timeout rest

/-! ## Selection of the fastest result

`cli.py` line 240: `sorted(results, key=lambda x: x.speed, reverse=True)[0]`.
Python's `sorted` is stable also with `reverse=True`: elements with equal keys
keep their original relative order.  `insertDesc`/`sortDesc` is that stable
descending sort, and `cliSelect` takes the head. -/

/-- Stable descending insertion: `x` (earlier in the original list than
everything in the sorted tail) passes only elements with strictly greater
speed, so it lands before every equal-speed element, as Python's stable
`sorted(..., reverse=True)` places it. -/
def insertDesc (x : DownloadResult) : List DownloadResult → List DownloadResult
  | [] => [x]
  | y :: ys => if y.speed > x.speed then y :: insertDesc x ys else x :: y :: ys

/-- Stable sort of results by speed, descending (Python
`sorted(results, key=lambda x: x.speed, reverse=True)`). -/
def sortDesc : List DownloadResult → List DownloadResult
  | [] => []
  | x :: xs => insertDesc x (sortDesc xs)

/-- The result `cli.py` selects (line 240): first element of the stable
descending sort; `none` models the `IndexError` on an empty result list. -/
def cliSelect (rs : List DownloadResult) : Option DownloadResult :=
  (sortDesc rs).head?

/-- Python string comparison on code points: lexicographic order on the
character sequences. -/
def charsLtb : List Char → List Char → Bool
  | [], [] => false
  | [], _ :: _ => true
  | _ :: _, [] => false
  | a :: as, b :: bs =>
    if a.val < b.val then true
    else if a.val = b.val then charsLtb as bs
    else false

/-- Python comparison `x < y` on `(float, str)` pairs: lexicographic, first by
speed and then by the URL string (code-point order). -/
def pairLtb (x y : ℚ × String) : Bool :=
  if x.1 < y.1 then true
  else if x.1 = y.1 then charsLtb x.2.data y.2.data
  else false

/-- Python `max` over a non-empty iterable with accumulator `x`: the running
maximum is replaced exactly when a later element compares strictly greater. -/
def pyMax (x : ℚ × String) : List (ℚ × String) → ℚ × String
  | [] => x
  | y :: ys => if pairLtb x y then pyMax y ys else pyMax x ys

/-- Embeds the selection of `uv-index.py` `main` (line 138):
`_, fast_index = max(data)` over the accumulated `(speed, url)` pairs;
`none` models the `ValueError` Python's `max` raises on an empty list. -/
def scriptSelect : List (ℚ × String) → Option (ℚ × String)
  | [] => none
  | x :: xs => some (pyMax x xs)

/-- Specification-side selection, from the spec's words: "the selected target
is the one with strictly maximal throughput; ties resolve to the first
encountered in list order" — among `r :: rs`, the first element whose speed no
other element exceeds: a later maximum displaces `r` only when strictly
faster. -/
def firstMaxD (r : DownloadResult) : List DownloadResult → DownloadResult
  | [] => r
  | x :: xs => if (firstMaxD x xs).speed > r.speed then firstMaxD x xs else r

/-! ## The configuration document

`cli.py` manipulates the TOML document with tomlkit.  We model a
well-formed document as: an optional scalar `python-install-mirror` key and an
array-of-tables `index`, each entry carrying a `url` string, a `default`
boolean, and any other key/value pairs verbatim (the spec's data model, §3 and
§6: each entry has a URL and a boolean default marker). -/

/-- One entry of the `index` array-of-tables: its `url`, its `default` marker,
and the remaining key/value pairs, already rendered as TOML fragments,
preserved verbatim by the mutation. -/
structure IndexEntry where
  url : String
  default : Bool
  extras : List (String × String)
  deriving Repr, DecidableEq

/-- The configuration document: the optional scalar `python-install-mirror`
key and the `index` array. -/
structure Config where
  index : List IndexEntry
  pythonInstallMirror : Option String
  deriving Repr, DecidableEq

/-- TOML string rendering. -/
def quoteStr (s : String) : String := "\"" ++ s ++ "\""

/-- TOML boolean rendering. -/
def boolStr (b : Bool) : String := if b then "true" else "false"

/-- Serialized lines of one `index` entry, as tomlkit dumps a table of the
array-of-tables: its header, the `url` and `default` keys, then the extras. -/
def serializeEntry (e : IndexEntry) : List String :=
  "[[index]]" :: ("url = " ++ quoteStr e.url) :: ("default = " ++ boolStr e.default)
    :: e.extras.map (fun p => p.1 ++ " = " ++ p.2)

/-- Serialized lines of the whole document: the scalar key (when present,
before the array-of-tables as TOML requires), then each entry's lines. -/
def serializeConfig (c : Config) : List String :=
  (match c.pythonInstallMirror with
   | none => []
   | some m => ["python-install-mirror = " ++ quoteStr m]) ++
  (c.index.map serializeEntry).flatten

/-- Joins serialized lines into the file text, each line newline-terminated
(the shape `tomlkit.dumps` produces). -/
def unlines : List String → String
  | [] => ""
  | l :: ls => l ++ "\n" ++ unlines ls

/-- The serialized text of the document (`tomlkit.dumps(config)`). -/
def serializeText (c : Config) : String := unlines (serializeConfig c)

/-- Embeds `display_diff` of `cli.py` (lines 110–124): when the two texts
differ it prints a unified diff and returns `True`, otherwise returns
`False`.  The comparison is the textual `s1 != s2`. -/
def display_diff (s1 s2 : String) : Bool :=
  if s1 ≠ s2 then true else false

/-- Embeds the `for item in index_aot` loop of `set_index_url` (`cli.py` lines
152–157): every entry whose `default` marker is set gets its `url` overwritten
with `index_url`; the boolean is `default_index_found`. -/
def setDefaultUrls (indexUrl : String) : List IndexEntry → List IndexEntry × Bool
  | [] => ([], false)
  | e :: es =>
    let r := setDefaultUrls indexUrl es
    if e.default then ({ e with url := indexUrl } :: r.1, true)
    else (e :: r.1, r.2)

/-- Embeds `set_index_url` of `cli.py` (lines 143–174): overwrite the URL of
the default entries; if none was found, append a fresh
`{url = index_url, default = true}` table; write the document back and return
`display_diff(old_text, new_text)`. -/
def set_index_url (indexUrl : String) (cfg : Config) : Config × Bool :=
  let r := setDefaultUrls indexUrl cfg.index
  let entries := if r.2 then r.1 else r.1 ++ [⟨indexUrl, true, []⟩]
  let newCfg : Config := { cfg with index := entries }
  (newCfg, display_diff (serializeText cfg) (serializeText newCfg))

/-- Embeds `set_python_install_mirror` of `cli.py` (lines 177–192): overwrite
the scalar key, write back, report the textual diff. -/
def set_python_install_mirror (m : String) (cfg : Config) : Config × Bool :=
  let newCfg : Config := { cfg with pythonInstallMirror := some m }
  (newCfg, display_diff (serializeText cfg) (serializeText newCfg))

/-- Embeds the `index` command of `cli.py` (lines 233–250) with confirmation
granted: probe all targets, sort the valid results by speed descending, take
the first (an `IndexError` escapes when there is none — before any file
write), and apply `set_index_url` with its URL.  Returns the final on-disk
document together with the outcome (`Except.error` = the raised exception,
`Except.ok changed` = the reported change flag). -/
def indexCommand (timeout : ℚ) (inputs : List (String × ProbeInput)) (cfg : Config) :
    Config × Except String Bool :=
  let results := test_index_urls timeout inputs
  match cliSelect results with
  | none => (cfg, .error "IndexError: list index out of range")
  | some r =>
    let s := set_index_url r.value cfg
    (s.1, .ok s.2)

/-- Number of entries with the `default` marker set. -/
def countDefaults (l : List IndexEntry) : ℕ :=
  l.countP (fun e => e.default)

/-- Number of changed lines between two serialized documents: positionwise
mismatches, plus every line of the longer tail (each shows up in a unified
diff as a removed/added line). -/
def countDiffLines : List String → List String → ℕ
  | [], ys => ys.length
  | x :: xs, [] => (x :: xs).length
  | x :: xs, y :: ys => (if x = y then 0 else 1) + countDiffLines xs ys

/-- A sample valid probe result: 2048 bytes in 2 seconds from target `"a"`. -/
def resultA : DownloadResult := ⟨2048, 2, "a", 1024⟩

/-- A sample probe trace delivering 1024-byte chunks at times 1 and 2. -/
def traceA : ProbeInput := ProbeInput.trace 0 [⟨1, 1024⟩, ⟨2, 1024⟩]

/-- The single default index entry of the spec's Scenario B. -/
def oldEntry : IndexEntry := ⟨"https://old/", true, []⟩

/-!
## Theorems
-/

theorem sortDesc_cons_eq (xs : List DownloadResult) (x : DownloadResult) :
    ∃ t, sortDesc (x :: xs) = firstMaxD x xs :: t := by
  induction xs generalizing x with
  | nil => exact ⟨[], rfl⟩
  | cons y ys ih =>
    obtain ⟨t, ht⟩ := ih y
    show ∃ t2, insertDesc x (sortDesc (y :: ys)) = firstMaxD x (y :: ys) :: t2
    rw [ht]
    simp only [insertDesc, firstMaxD]
    by_cases hc : (firstMaxD y ys).speed > x.speed
    · rw [if_pos hc, if_pos hc]
      exact ⟨insertDesc x t, rfl⟩
    · rw [if_neg hc, if_neg hc]
      exact ⟨firstMaxD y ys :: t, rfl⟩

theorem cliSelect_cons (xs : List DownloadResult) (x : DownloadResult) :
    cliSelect (x :: xs) = some (firstMaxD x xs) := by
  obtain ⟨t, ht⟩ := sortDesc_cons_eq xs x
  rw [cliSelect, ht]
  rfl

theorem firstMaxD_spec (xs : List DownloadResult) (x : DownloadResult) :
    ∃ l1 l2, x :: xs = l1 ++ firstMaxD x xs :: l2 ∧
      (∀ s ∈ l1, s.speed < (firstMaxD x xs).speed) ∧
      ∀ s ∈ x :: xs, s.speed ≤ (firstMaxD x xs).speed := by
  induction xs generalizing x with
  | nil => exact ⟨[], [], rfl, by simp, by simp [firstMaxD]⟩
  | cons y ys ih =>
    obtain ⟨l1, l2, heq, hlt, hle⟩ := ih y
    simp only [firstMaxD]
    by_cases hc : (firstMaxD y ys).speed > x.speed
    · rw [if_pos hc]
      refine ⟨x :: l1, l2, by rw [List.cons_append, ← heq], ?_, ?_⟩
      · intro s hs
        rcases List.mem_cons.mp hs with rfl | hs
        · exact hc
        · exact hlt s hs
      · intro s hs
        rcases List.mem_cons.mp hs with rfl | hs
        · exact le_of_lt hc
        · exact hle s hs
    · rw [if_neg hc]
      refine ⟨[], y :: ys, rfl, by simp, ?_⟩
      intro s hs
      rcases List.mem_cons.mp hs with rfl | hs
      · exact le_refl _
      · exact le_trans (hle s hs) (not_lt.mp hc)

theorem pairLtb_true_speed_le {x y : ℚ × String} (h : pairLtb x y = true) :
    x.1 ≤ y.1 := by
  unfold pairLtb at h
  split at h
  · exact le_of_lt (by assumption)
  · split at h
    · exact le_of_eq (by assumption)
    · exact absurd h (by simp)

theorem pairLtb_false_speed_le {x y : ℚ × String} (h : pairLtb x y = false) :
    y.1 ≤ x.1 := by
  unfold pairLtb at h
  split at h
  · exact absurd h (by simp)
  · exact not_lt.mp (by assumption)

theorem pyMax_mem (xs : List (ℚ × String)) (x : ℚ × String) :
    pyMax x xs ∈ x :: xs := by
  induction xs generalizing x with
  | nil => simp [pyMax]
  | cons y ys ih =>
    unfold pyMax
    split
    · rcases List.mem_cons.mp (ih y) with h | h
      · simp [h]
      · simp [List.mem_cons.mpr (Or.inr (List.mem_cons.mpr (Or.inr h)))]
    · rcases List.mem_cons.mp (ih x) with h | h
      · simp [h]
      · simp [List.mem_cons.mpr (Or.inr (List.mem_cons.mpr (Or.inr h)))]

theorem pyMax_speed_le (xs : List (ℚ × String)) (x : ℚ × String) :
    ∀ y ∈ x :: xs, y.1 ≤ (pyMax x xs).1 := by
  induction xs generalizing x with
  | nil => simp [pyMax]
  | cons z zs ih =>
    intro y hy
    unfold pyMax
    by_cases hp : pairLtb x z = true
    · rw [if_pos hp]
      rcases List.mem_cons.mp hy with rfl | hy
      · exact le_trans (pairLtb_true_speed_le hp) (ih z z (by simp))
      · exact ih z y hy
    · rw [if_neg hp]
      rcases List.mem_cons.mp hy with rfl | hy
      · exact ih y y (by simp)
      · rcases List.mem_cons.mp hy with rfl | hy
        · exact le_trans
            (pairLtb_false_speed_le (Bool.not_eq_true _ ▸ hp : pairLtb x y = false))
            (ih x x (by simp))
        · exact ih x y (by simp [hy])

/-- C1 (amended).  For the CLI (`cli.py` line 240), the selected result is the
one with maximal throughput, and every result listed before it has strictly
smaller throughput — ties resolve to the first encountered in list order.  For
the standalone script (`uv-index.py` line 138), `max(data)` also selects an
element of maximal throughput, but ties between equal throughputs resolve by
the lexicographic order of the `(speed, url)` pairs, i.e. to the greatest URL,
not to the first in list order. -/
theorem C1_fastest_selection :
    (∀ (x : DownloadResult) (xs : List DownloadResult),
      cliSelect (x :: xs) = some (firstMaxD x xs) ∧
      ∃ l1 l2, x :: xs = l1 ++ firstMaxD x xs :: l2 ∧
        (∀ s ∈ l1, s.speed < (firstMaxD x xs).speed) ∧
        ∀ s ∈ x :: xs, s.speed ≤ (firstMaxD x xs).speed)
    ∧ ∀ (x : ℚ × String) (xs : List (ℚ × String)),
        pyMax x xs ∈ x :: xs ∧ ∀ y ∈ x :: xs, y.1 ≤ (pyMax x xs).1 :=
  ⟨fun x xs => ⟨cliSelect_cons xs x, firstMaxD_spec xs x⟩,
   fun x xs => ⟨pyMax_mem xs x, pyMax_speed_le xs x⟩⟩

/-- C1 (counterexample).  In the script `uv-index.py`, with two probe results
of equal (maximal) throughput 1, `max(data)` selects `"https://b/"`, the
lexicographically greater URL, not the first-encountered `"https://a/"` that
the claim requires. -/
theorem C1_tie_counterexample :
    scriptSelect [((1:ℚ), "https://a/"), ((1:ℚ), "https://b/")] = some ((1:ℚ), "https://b/")
    ∧ scriptSelect [((1:ℚ), "https://a/"), ((1:ℚ), "https://b/")] ≠
        some ((1:ℚ), "https://a/") := by
  constructor <;> simp [scriptSelect, pyMax, pairLtb, charsLtb]

theorem countDefaults_setDefaultUrls (u : String) (l : List IndexEntry) :
    countDefaults (setDefaultUrls u l).1 = countDefaults l := by
  induction l with
  | nil => rfl
  | cons e es ih =>
    unfold setDefaultUrls
    by_cases h : e.default <;> simp [h, countDefaults, List.countP_cons] at ih ⊢ <;>
      omega

theorem setDefaultUrls_found_iff (u : String) (l : List IndexEntry) :
    (setDefaultUrls u l).2 = l.any (fun e => e.default) := by
  induction l with
  | nil => rfl
  | cons e es ih =>
    unfold setDefaultUrls
    by_cases h : e.default <;> simp [h, ih]

theorem countDefaults_append (a b : List IndexEntry) :
    countDefaults (a ++ b) = countDefaults a + countDefaults b :=
  List.countP_append _ _ _

theorem set_index_url_fst (u : String) (cfg : Config) :
    (set_index_url u cfg).1 =
      { cfg with index := if (setDefaultUrls u cfg.index).2
          then (setDefaultUrls u cfg.index).1
          else (setDefaultUrls u cfg.index).1 ++ [⟨u, true, []⟩] } := rfl

theorem set_index_url_snd (u : String) (cfg : Config) :
    (set_index_url u cfg).2 =
      display_diff (serializeText cfg) (serializeText (set_index_url u cfg).1) := rfl

/-- C2 (amended).  When the starting document has at most one index entry with
the default marker set — in particular any document this tool itself writes —
the mutated document also has at most one: the loop only rewrites URLs of
existing default entries, and a fresh default entry is appended only when none
exists. -/
theorem C2_at_most_one_default (u : String) (cfg : Config)
    (h : countDefaults cfg.index ≤ 1) :
    countDefaults (set_index_url u cfg).1.index ≤ 1 := by
  rw [set_index_url_fst]
  by_cases hf : (setDefaultUrls u cfg.index).2 = true
  · show countDefaults (if (setDefaultUrls u cfg.index).2 then _ else _) ≤ 1
    rw [if_pos hf, countDefaults_setDefaultUrls]
    exact h
  · have hz : countDefaults cfg.index = 0 := by
      rw [setDefaultUrls_found_iff] at hf
      exact List.countP_eq_zero.mpr (by simpa [List.any_eq_true] using hf)
    show countDefaults (if (setDefaultUrls u cfg.index).2 then _ else _) ≤ 1
    rw [if_neg hf, countDefaults_append, countDefaults_setDefaultUrls, hz]
    simp [countDefaults]

/-- Witness for C2 (amended): the empty document has no default entry, and
after the mutation exactly one entry carries the marker. -/
theorem C2_at_most_one_default_witness :
    countDefaults (set_index_url "https://m/" ⟨[], none⟩).1.index ≤ 1 :=
  C2_at_most_one_default "https://m/" ⟨[], none⟩ (by simp [countDefaults])

/-- C2 (counterexample).  Starting from a document whose `index` array has two
entries with `default = true`, `set_index_url` rewrites both URLs but clears
neither marker: the result still has two default entries, violating "at most
one". -/
theorem C2_two_defaults_counterexample :
    ¬ countDefaults
        (set_index_url "https://m/"
          ⟨[⟨"https://a/", true, []⟩, ⟨"https://b/", true, []⟩], none⟩).1.index ≤ 1 := by
  simp [set_index_url, setDefaultUrls, countDefaults]

theorem data_quote : ("\"" : String).data = ['\"'] := rfl

theorem keyline_ne (k : String) {a b : String} (h : a ≠ b) :
    k ++ quoteStr a ≠ k ++ quoteStr b := by
  intro heq
  apply h
  have hd : (k ++ quoteStr a).data = (k ++ quoteStr b).data := by rw [heq]
  simp only [quoteStr, String.data_append] at hd
  have h1 := List.append_cancel_left hd
  have h2 := List.append_cancel_right h1
  have h3 := List.append_cancel_left h2
  exact String.ext h3

theorem countDiffLines_self (a : List String) : countDiffLines a a = 0 := by
  induction a with
  | nil => rfl
  | cons x xs ih => simp [countDiffLines, ih]

theorem countDiffLines_append {a b : List String} (c d : List String)
    (h : a.length = b.length) :
    countDiffLines (a ++ c) (b ++ d) = countDiffLines a b + countDiffLines c d := by
  induction a generalizing b with
  | nil =>
    cases b with
    | nil => simp [countDiffLines]
    | cons y ys => simp at h
  | cons x xs ih =>
    cases b with
    | nil => simp at h
    | cons y ys =>
      simp only [List.cons_append, countDiffLines, List.append_eq]
      rw [ih (show xs.length = ys.length by simpa using h)]
      omega

theorem serializeEntry_length_set_url (e : IndexEntry) (u : String) :
    (serializeEntry { e with url := u }).length = (serializeEntry e).length := by
  simp [serializeEntry]

theorem countDiffLines_entry_set_url (e : IndexEntry) (u : String) (h : u ≠ e.url) :
    countDiffLines (serializeEntry e) (serializeEntry { e with url := u }) = 1 := by
  simp only [serializeEntry, countDiffLines, countDiffLines_self]
  rw [if_neg (keyline_ne "url = " (Ne.symm h))]
  simp

theorem setDefaultUrls_no_default (u : String) (l : List IndexEntry)
    (h : ∀ s ∈ l, s.default = false) :
    setDefaultUrls u l = (l, false) := by
  induction l with
  | nil => rfl
  | cons e es ih =>
    have he : e.default = false := h e (by simp)
    unfold setDefaultUrls
    rw [ih (fun s hs => h s (by simp [hs]))]
    simp [he]

theorem setDefaultUrls_cons_default (u : String) (l : List IndexEntry)
    {e : IndexEntry} (he : e.default = true) :
    setDefaultUrls u (e :: l) =
      ({ e with url := u } :: (setDefaultUrls u l).1, true) := by
  conv_lhs => rw [setDefaultUrls]
  simp [he]

theorem setDefaultUrls_cons_nondefault (u : String) (l : List IndexEntry)
    {e : IndexEntry} (he : e.default = false) :
    setDefaultUrls u (e :: l) =
      (e :: (setDefaultUrls u l).1, (setDefaultUrls u l).2) := by
  conv_lhs => rw [setDefaultUrls]
  simp [he]

theorem setDefaultUrls_append (u : String) (l1 l2 : List IndexEntry) :
    setDefaultUrls u (l1 ++ l2) =
      ((setDefaultUrls u l1).1 ++ (setDefaultUrls u l2).1,
       (setDefaultUrls u l1).2 || (setDefaultUrls u l2).2) := by
  induction l1 with
  | nil =>
    have h0 : setDefaultUrls u ([] : List IndexEntry) = ([], false) := rfl
    rw [List.nil_append, h0]
    simp
  | cons e es ih =>
    by_cases he : e.default = true
    · rw [List.cons_append, setDefaultUrls_cons_default u (es ++ l2) he,
        setDefaultUrls_cons_default u es he, ih]
      simp
    · have he' : e.default = false := by simpa using he
      rw [List.cons_append, setDefaultUrls_cons_nondefault u (es ++ l2) he',
        setDefaultUrls_cons_nondefault u es he', ih]
      simp [Bool.or_assoc]

theorem countDiffLines_serializeConfig (mir : Option String) (i1 i2 : List IndexEntry) :
    countDiffLines (serializeConfig ⟨i1, mir⟩) (serializeConfig ⟨i2, mir⟩) =
      countDiffLines (i1.map serializeEntry).flatten (i2.map serializeEntry).flatten := by
  cases mir with
  | none => rfl
  | some m =>
    show countDiffLines
        (["python-install-mirror = " ++ quoteStr m] ++ (i1.map serializeEntry).flatten)
        (["python-install-mirror = " ++ quoteStr m] ++ (i2.map serializeEntry).flatten) = _
    rw [countDiffLines_append _ _ rfl, countDiffLines_self]
    omega

/-- C3.  On a document whose `index` array has exactly one entry flagged as
default, `set_index_url` with a genuinely new URL overwrites that entry's URL
in place: entry order, all other entries, the entry's other fields and the
scalar mirror key are preserved, the array length is unchanged, and the
serialized document differs from the old one in exactly one line. -/
theorem C3_overwrite_in_place (u : String) (mir : Option String)
    (l1 l2 : List IndexEntry) (e : IndexEntry)
    (h1 : ∀ s ∈ l1, s.default = false) (h2 : ∀ s ∈ l2, s.default = false)
    (he : e.default = true) (hu : u ≠ e.url) :
    (set_index_url u ⟨l1 ++ e :: l2, mir⟩).1.index = l1 ++ { e with url := u } :: l2 ∧
    ((set_index_url u ⟨l1 ++ e :: l2, mir⟩).1.index).length = (l1 ++ e :: l2).length ∧
    (set_index_url u ⟨l1 ++ e :: l2, mir⟩).1.pythonInstallMirror = mir ∧
    countDiffLines (serializeConfig ⟨l1 ++ e :: l2, mir⟩)
      (serializeConfig (set_index_url u ⟨l1 ++ e :: l2, mir⟩).1) = 1 := by
  have e1 : setDefaultUrls u l1 = (l1, false) := setDefaultUrls_no_default u l1 h1
  have e2 : setDefaultUrls u l2 = (l2, false) := setDefaultUrls_no_default u l2 h2
  have hsd : setDefaultUrls u (l1 ++ e :: l2) =
      (l1 ++ { e with url := u } :: l2, true) := by
    rw [setDefaultUrls_append, e1, setDefaultUrls_cons_default u l2 he, e2]
    simp
  have hix : (set_index_url u ⟨l1 ++ e :: l2, mir⟩).1 =
      ⟨l1 ++ { e with url := u } :: l2, mir⟩ := by
    rw [set_index_url_fst]
    show Config.mk (if (setDefaultUrls u (l1 ++ e :: l2)).2 then _ else _) mir = _
    rw [hsd]
    rfl
  refine ⟨by rw [hix], by rw [hix]; simp, by rw [hix], ?_⟩
  rw [hix, countDiffLines_serializeConfig]
  simp only [List.map_append, List.map_cons, List.flatten_append, List.flatten_cons]
  rw [countDiffLines_append _ _ rfl, countDiffLines_self,
    countDiffLines_append _ _ (serializeEntry_length_set_url e u).symm,
    countDiffLines_self, countDiffLines_entry_set_url e u hu]

/-- Witness for C3: the spec's Scenario B — the document
`index = [{url = "https://old/", default = true}]` is rewritten in place to
`index = [{url = "https://new/", default = true}]` with a one-line diff. -/
theorem C3_overwrite_in_place_witness :
    (set_index_url "https://new/" ⟨[] ++ oldEntry :: [], none⟩).1.index =
      [] ++ { oldEntry with url := "https://new/" } :: [] ∧
    ((set_index_url "https://new/" ⟨[] ++ oldEntry :: [], none⟩).1.index).length =
      ([] ++ oldEntry :: []).length ∧
    (set_index_url "https://new/" ⟨[] ++ oldEntry :: [], none⟩).1.pythonInstallMirror = none ∧
    countDiffLines (serializeConfig ⟨[] ++ oldEntry :: [], none⟩)
      (serializeConfig (set_index_url "https://new/" ⟨[] ++ oldEntry :: [], none⟩).1) = 1 :=
  C3_overwrite_in_place "https://new/" none [] [] oldEntry (by simp) (by simp)
    (by rfl) (by decide)

theorem data_newline : ("\n" : String).data = ['\n'] := rfl

theorem unlines_cons_ne_empty (l : String) (ls : List String) :
    unlines (l :: ls) ≠ "" := by
  intro h
  have hd : (unlines (l :: ls)).data = ("" : String).data := by rw [h]
  rw [unlines] at hd
  simp only [String.data_append, data_newline] at hd
  simp at hd

/-- C4.  When no index entry is flagged as default (the empty document
included), `set_index_url` appends `{url = new_url, default = true}` at the
end of the array, removing and reordering nothing and leaving the mirror key
alone; from the empty document the result is exactly that one entry and a
non-empty diff (change flag `true`) is reported. -/
theorem C4_append_when_no_default (u : String) (cfg : Config)
    (h : ∀ s ∈ cfg.index, s.default = false) :
    (set_index_url u cfg).1.index = cfg.index ++ [⟨u, true, []⟩] ∧
    (set_index_url u cfg).1.pythonInstallMirror = cfg.pythonInstallMirror ∧
    (set_index_url u ⟨[], none⟩).1.index = [⟨u, true, []⟩] ∧
    (set_index_url u ⟨[], none⟩).2 = true := by
  have e1 : setDefaultUrls u cfg.index = (cfg.index, false) :=
    setDefaultUrls_no_default u cfg.index h
  have hix : ∀ c : Config, (∀ s ∈ c.index, s.default = false) →
      (set_index_url u c).1 = ⟨c.index ++ [⟨u, true, []⟩], c.pythonInstallMirror⟩ := by
    intro c hc
    rw [set_index_url_fst]
    show Config.mk (if (setDefaultUrls u c.index).2 then _ else _) c.pythonInstallMirror = _
    rw [setDefaultUrls_no_default u c.index hc]
    rfl
  refine ⟨by rw [hix cfg h], by rw [hix cfg h], by rw [hix ⟨[], none⟩ (by simp)]; rfl, ?_⟩
  rw [set_index_url_snd, hix ⟨[], none⟩ (by simp)]
  show display_diff "" (serializeText ⟨[⟨u, true, []⟩], none⟩) = true
  rw [display_diff, if_pos]
  exact fun habs => unlines_cons_ne_empty _ _ habs.symm

/-- Witness for C4: the spec's Scenario A — from the empty document,
`set_index_url "https://m1/"` yields exactly one index entry
`{url = "https://m1/", default = true}` and reports a change. -/
theorem C4_append_when_no_default_witness :
    (set_index_url "https://m1/" ⟨[], none⟩).1.index = [] ++ [⟨"https://m1/", true, []⟩] ∧
    (set_index_url "https://m1/" ⟨[], none⟩).1.pythonInstallMirror = none ∧
    (set_index_url "https://m1/" ⟨[], none⟩).1.index = [⟨"https://m1/", true, []⟩] ∧
    (set_index_url "https://m1/" ⟨[], none⟩).2 = true :=
  C4_append_when_no_default "https://m1/" ⟨[], none⟩ (by simp)

/-- C5.  When the probe batch yields zero valid results, the `index` command
raises (`sorted(results, ...)[0]` is an `IndexError` on the empty list) before
any confirmation or mutation: the on-disk document is untouched and the run
ends in the raised error. -/
theorem C5_no_viable_endpoint (t : ℚ) (inputs : List (String × ProbeInput)) (cfg : Config)
    (h : test_index_urls t inputs = []) :
    (indexCommand t inputs cfg).1 = cfg ∧
    (indexCommand t inputs cfg).2 = Except.error "IndexError: list index out of range" := by
  unfold indexCommand
  rw [h]
  exact ⟨rfl, rfl⟩

/-- Witness for C5: a batch whose only probe fails to connect leaves the
(empty) document untouched and raises. -/
theorem C5_no_viable_endpoint_witness :
    (indexCommand 5 [("https://m/", ProbeInput.fail "ConnectError")] ⟨[], none⟩).1 =
      ⟨[], none⟩ ∧
    (indexCommand 5 [("https://m/", ProbeInput.fail "ConnectError")] ⟨[], none⟩).2 =
      Except.error "IndexError: list index out of range" :=
  C5_no_viable_endpoint 5 [("https://m/", ProbeInput.fail "ConnectError")] ⟨[], none⟩ rfl

theorem download_ok_fields {v : String} {t s : ℚ} {ch : List Chunk} {r : DownloadResult}
    (h : download v t s ch = Except.ok r) :
    r.speed = (r.total_bytes : ℚ) / r.duration ∧ r.duration ≠ 0 := by
  unfold download at h
  by_cases hz : (downloadLoop s t ch (-1) 0).1 - s = 0
  · rw [if_pos hz] at h
    cases h
  · rw [if_neg hz] at h
    injection h with h
    subst h
    exact ⟨rfl, hz⟩

theorem runProbe_ok_fields {v : String} {t : ℚ} {inp : ProbeInput} {r : DownloadResult}
    (h : runProbe v t inp = Except.ok r) :
    r.speed = (r.total_bytes : ℚ) / r.duration ∧ r.duration ≠ 0 := by
  cases inp with
  | fail msg => cases h
  | trace s ch => exact download_ok_fields h

theorem test_index_urls_cons (t : ℚ) (v : String) (inp : ProbeInput)
    (rest : List (String × ProbeInput)) :
    test_index_urls t ((v, inp) :: rest) =
      match runProbe v t inp with
      | .error _ => test_index_urls t rest
      | .ok r =>
        if r.speed > 0 then r :: test_index_urls t rest
        else test_index_urls t rest := by
  rfl

theorem mem_test_index_urls {t : ℚ} {inputs : List (String × ProbeInput)}
    {r : DownloadResult} (hr : r ∈ test_index_urls t inputs) :
    0 < r.speed ∧ r.speed = (r.total_bytes : ℚ) / r.duration := by
  induction inputs with
  | nil => cases hr
  | cons p rest ih =>
    obtain ⟨v, inp⟩ := p
    rw [test_index_urls_cons] at hr
    cases hp : runProbe v t inp with
    | error e =>
      rw [hp] at hr
      exact ih hr
    | ok r0 =>
      rw [hp] at hr
      have hr2 : r ∈ (if r0.speed > 0 then r0 :: test_index_urls t rest
          else test_index_urls t rest) := hr
      by_cases hs : r0.speed > 0
      · rw [if_pos hs] at hr2
        rcases List.mem_cons.mp hr2 with rfl | hr2
        · exact ⟨hs, (runProbe_ok_fields hp).1⟩
        · exact ih hr2
      · rw [if_neg hs] at hr2
        exact ih hr2

theorem test_python_install_urls_eq (t : ℚ) (inputs : List (String × ProbeInput)) :
    test_python_install_urls t inputs = test_index_urls t inputs := by
  induction inputs with
  | nil => rfl
  | cons p rest ih =>
    obtain ⟨v, inp⟩ := p
    rw [test_index_urls_cons]
    show (match runProbe v t inp with
      | .error _ => test_python_install_urls t rest
      | .ok r =>
        if r.speed > 0 then r :: test_python_install_urls t rest
        else test_python_install_urls t rest) = _
    rw [ih]

/-- C6.  A probe whose computed duration is zero or negative never reaches the
ranking: a negative duration yields a non-positive speed, which the
`result.speed > 0` filter rejects; a zero duration makes `download` raise
`ZeroDivisionError`, which the `except` clause of the probe loop swallows, so
no division error escapes the probe-and-rank phase. -/
theorem C6_invalid_duration_excluded (t : ℚ) :
    (∀ (inputs : List (String × ProbeInput)) (v : String) (inp : ProbeInput)
        (r : DownloadResult),
      runProbe v t inp = Except.ok r → r.duration ≤ 0 → r ∉ test_index_urls t inputs)
    ∧ ∀ (v : String) (s : ℚ) (ch : List Chunk) (rest : List (String × ProbeInput)),
        (downloadLoop s t ch (-1) 0).1 - s = 0 →
        test_index_urls t ((v, ProbeInput.trace s ch) :: rest) =
          test_index_urls t rest := by
  constructor
  · intro inputs v inp r hok hd hmem
    obtain ⟨hspeed, hnz⟩ := runProbe_ok_fields hok
    have hneg : r.duration < 0 := lt_of_le_of_ne hd hnz
    have hsp : r.speed ≤ 0 := by
      rw [hspeed]
      exact div_nonpos_of_nonneg_of_nonpos (Nat.cast_nonneg _) (le_of_lt hneg)
    exact absurd (mem_test_index_urls hmem).1 (not_lt.mpr hsp)
  · intro v s ch rest h
    rw [test_index_urls_cons]
    show (match download v t s ch with
      | .error _ => test_index_urls t rest
      | .ok r =>
        if r.speed > 0 then r :: test_index_urls t rest
        else test_index_urls t rest) = _
    unfold download
    rw [if_pos h]

/-- Witness for C6: a probe started at time 5 that yields no chunk has
duration `-6` and is excluded; a probe whose single chunk arrives exactly at
its start time has duration `0`, raises, is swallowed, and contributes
nothing. -/
theorem C6_invalid_duration_excluded_witness :
    ((⟨0, -6, "m", 0⟩ : DownloadResult) ∉
      test_index_urls 5 [("m", ProbeInput.trace 5 [])])
    ∧ test_index_urls 5 [("m", ProbeInput.trace 0 [⟨0, 1024⟩])] =
        test_index_urls 5 [] :=
  ⟨(C6_invalid_duration_excluded 5).1 [("m", ProbeInput.trace 5 [])] "m"
      (ProbeInput.trace 5 []) ⟨0, -6, "m", 0⟩
      (by simp [runProbe, download, downloadLoop]; norm_num)
      (by norm_num),
   (C6_invalid_duration_excluded 5).2 "m" 0 [⟨0, 1024⟩] []
      (by simp [downloadLoop]; norm_num)⟩

/-- C7.  A network failure on one target is recovered locally: the failing
target is dropped and the batch result is exactly what it is without that
target; in the concrete batch of 3 targets with 1 connection failure, the 2
remaining results are still ranked. -/
theorem C7_network_failure_skipped (t : ℚ) (xs ys : List (String × ProbeInput))
    (v msg : String) :
    test_index_urls t (xs ++ (v, ProbeInput.fail msg) :: ys) =
      test_index_urls t (xs ++ ys) ∧
    (test_index_urls 5 [("a", ProbeInput.trace 0 [⟨1, 1024⟩, ⟨2, 1024⟩]),
        ("b", ProbeInput.fail "ConnectError"),
        ("c", ProbeInput.trace 0 [⟨1, 512⟩, ⟨2, 512⟩])]).length = 2 := by
  constructor
  · induction xs with
    | nil => rfl
    | cons p rest ih =>
      obtain ⟨w, inp⟩ := p
      rw [List.cons_append, List.cons_append, test_index_urls_cons,
        test_index_urls_cons, ih]
  · have hlist : test_index_urls 5 [("a", ProbeInput.trace 0 [⟨1, 1024⟩, ⟨2, 1024⟩]),
        ("b", ProbeInput.fail "ConnectError"),
        ("c", ProbeInput.trace 0 [⟨1, 512⟩, ⟨2, 512⟩])] =
        [⟨2048, 2, "a", 1024⟩, ⟨1024, 2, "c", 512⟩] := by
      simp [test_index_urls, runProbe, download, downloadLoop]
      norm_num
    rw [hlist]
    rfl

/-- C10.  Every result admitted to the ranking list — of either probe batch —
has strictly positive speed, hence strictly positive byte count and strictly
positive duration; in particular a probe that received zero bytes (speed 0)
never enters the ranking even though it raised no error. -/
theorem C10_ranked_results_valid (t : ℚ) (inputs : List (String × ProbeInput))
    (r : DownloadResult) :
    (r ∈ test_index_urls t inputs →
      0 < r.speed ∧ 0 < r.total_bytes ∧ 0 < r.duration)
    ∧ (r ∈ test_python_install_urls t inputs →
      0 < r.speed ∧ 0 < r.total_bytes ∧ 0 < r.duration) := by
  have key : r ∈ test_index_urls t inputs →
      0 < r.speed ∧ 0 < r.total_bytes ∧ 0 < r.duration := by
    intro hr
    obtain ⟨hpos, heq⟩ := mem_test_index_urls hr
    have hdiv : 0 < (r.total_bytes : ℚ) / r.duration := heq ▸ hpos
    rcases div_pos_iff.mp hdiv with ⟨h1, h2⟩ | ⟨h1, h2⟩
    · exact ⟨hpos, by exact_mod_cast h1, h2⟩
    · exact absurd h1 (not_lt.mpr (Nat.cast_nonneg _))
  exact ⟨key, fun hr => key ((test_python_install_urls_eq t inputs) ▸ hr)⟩

/-- Witness for C10: the result of a healthy probe (2048 bytes in 2 seconds)
is in both ranking lists and indeed has positive speed, bytes and duration. -/
theorem C10_ranked_results_valid_witness :
    (0 < resultA.speed ∧ 0 < resultA.total_bytes ∧ 0 < resultA.duration) ∧
    (0 < resultA.speed ∧ 0 < resultA.total_bytes ∧ 0 < resultA.duration) :=
  ⟨(C10_ranked_results_valid 5 [("a", traceA)] resultA).1
      (by simp [test_index_urls, runProbe, download, downloadLoop, traceA, resultA]
          norm_num),
   (C10_ranked_results_valid 5 [("a", traceA)] resultA).2
      (by rw [test_python_install_urls_eq]
          simp [test_index_urls, runProbe, download, downloadLoop, traceA, resultA]
          norm_num)⟩

theorem config_ext {a b : Config} (h1 : a.index = b.index)
    (h2 : a.pythonInstallMirror = b.pythonInstallMirror) : a = b := by
  cases a
  cases b
  simp_all

theorem set_index_url_index (u : String) (c : Config) :
    (set_index_url u c).1.index =
      if (setDefaultUrls u c.index).2 then (setDefaultUrls u c.index).1
      else (setDefaultUrls u c.index).1 ++ [⟨u, true, []⟩] := rfl

theorem set_index_url_mirror (u : String) (c : Config) :
    (set_index_url u c).1.pythonInstallMirror = c.pythonInstallMirror := rfl

theorem setDefaultUrls_idem (u : String) (l : List IndexEntry) :
    setDefaultUrls u (setDefaultUrls u l).1 = setDefaultUrls u l := by
  induction l with
  | nil => rfl
  | cons e es ih =>
    by_cases he : e.default = true
    · rw [setDefaultUrls_cons_default u es he]
      show setDefaultUrls u ({ e with url := u } :: (setDefaultUrls u es).1) = _
      rw [setDefaultUrls_cons_default u (setDefaultUrls u es).1
        (show ({ e with url := u } : IndexEntry).default = true from he), ih]
    · have he' : e.default = false := by simpa using he
      rw [setDefaultUrls_cons_nondefault u es he']
      show setDefaultUrls u (e :: (setDefaultUrls u es).1) = _
      rw [setDefaultUrls_cons_nondefault u (setDefaultUrls u es).1 he', ih]

theorem setDefaultUrls_not_found (u : String) (l : List IndexEntry)
    (hf : (setDefaultUrls u l).2 = false) :
    (setDefaultUrls u l).1 = l := by
  have hall : ∀ s ∈ l, s.default = false := by
    rw [setDefaultUrls_found_iff] at hf
    intro s hs
    simpa using List.any_eq_false.mp hf s hs
  rw [setDefaultUrls_no_default u l hall]

theorem set_index_url_fixpoint (u : String) (cfg : Config) :
    (set_index_url u (set_index_url u cfg).1).1 = (set_index_url u cfg).1 := by
  apply config_ext
  · rw [set_index_url_index u (set_index_url u cfg).1, set_index_url_index u cfg]
    by_cases hf : (setDefaultUrls u cfg.index).2 = true
    · rw [if_pos hf, setDefaultUrls_idem, if_pos hf]
    · rw [if_neg hf]
      have hl : (setDefaultUrls u cfg.index).1 = cfg.index :=
        setDefaultUrls_not_found u _ (by simpa using hf)
      have hnew : setDefaultUrls u [(⟨u, true, []⟩ : IndexEntry)] =
          ([⟨u, true, []⟩], true) := rfl
      rw [hl, setDefaultUrls_append, hnew, hl]
      simp
  · rw [set_index_url_mirror, set_index_url_mirror]

/-- C8.  The reported diff of `set_index_url` is idempotent: whatever the
starting document, a second application with the same URL finds the document
already a fixpoint of the mutation, so the old and new serialized texts
coincide and the change flag is `false` ("no change"). -/
theorem C8_idempotent_no_second_diff (u : String) (cfg : Config) :
    (set_index_url u (set_index_url u cfg).1).2 = false := by
  rw [set_index_url_snd, set_index_url_fixpoint]
  simp [display_diff]

/-- C9.  The mutation reports a change exactly when the old and new serialized
texts differ character-for-character: `display_diff` returns `true` iff the
two strings are unequal, `set_index_url`'s return value is precisely
`display_diff` of the old and new texts, and the comparison is textual — two
renderings of the same TOML data that differ only in whitespace count as a
change. -/
theorem C9_textual_change_report :
    (∀ s1 s2 : String, display_diff s1 s2 = true ↔ s1 ≠ s2)
    ∧ (∀ (u : String) (cfg : Config),
        (set_index_url u cfg).2 =
          display_diff (serializeText cfg) (serializeText (set_index_url u cfg).1))
    ∧ display_diff "url = \"a\"" "url  =  \"a\"" = true := by
  refine ⟨fun s1 s2 => ?_, fun u cfg => set_index_url_snd u cfg, ?_⟩
  · rw [display_diff]
    split <;> simp_all
  · decide

end UvMirror
